import Mathlib

/-!
Shallow embedding of the PhishShield browser extension's background scan
orchestrator (the background service-worker section of `popup.js`, together
with the constants of `config.js`).

The stateful JS is embedded as pure functions: the `urlCache` JS `Map` is a
list of key/entry pairs in insertion order, `Date.now()` is an explicit
`now : Nat` argument (milliseconds), the remote classifier reached through
`fetch` is an oracle `String → FetchOutcome`, the persisted
`showNotifications` setting is an `Option Bool` (`none` = key absent or the
store unreadable), and the observable side effects of a scan (badge writes,
cache consultation, remote calls, notifications) are returned explicitly.

JS-specific details mirrored here: `result.error` is tested for truthiness
(absent or empty string is falsy); `Array.prototype.sort` with the numeric
comparator `a[1].timestamp - b[1].timestamp` is a stable ascending sort,
matching `List.mergeSort`; `url.toLowerCase()` is modelled as per-character
`Char.toLower` (which agrees with JS on the ASCII URLs at issue); JS
`Date.now() - t` on an entry stored in the future is negative, hence neither
`> CACHE_TTL` nor outside `< CACHE_TTL`, and truncating `Nat` subtraction
gives the same two verdicts.  The numeric `score` and the `reasons` array of
a response are never branched on by the modelled control flow (they are only
formatted into UI text), so they are not carried.
-/

namespace PhishShield

/-- The JSON payload of a `/api/check-url` response as the background worker
reads it after `response.json()` succeeds: the `risk` and `error` fields may
each be absent. -/
structure CheckResponse where
  risk : Option String
  errorField : Option String
  deriving Repr, DecidableEq

/-- JS truthiness of `result.error`: the field is present and non-empty. -/
def CheckResponse.hasError (r : CheckResponse) : Bool :=
  match r.errorField with
  | some s => s != ""
  | none => false

/-- Outcome of one `fetch` of the remote classifier, as observable by the
worker.  `statusOk` records `response.ok`; the worker never reads it (it
calls `response.json()` unconditionally regardless of HTTP status).
`parseFailure`: a response arrived but `response.json()` rejected. -/
inductive FetchOutcome where
  | networkFailure
  | parseFailure (statusOk : Bool)
  | payload (statusOk : Bool) (data : CheckResponse)
  deriving Repr, DecidableEq

/-- One entry of `urlCache`: `{ result, timestamp: Date.now() }`. -/
structure CacheEntry where
  result : CheckResponse
  timestamp : Nat
  deriving Repr, DecidableEq

/-- The `urlCache` JS `Map`, as its entry list in insertion order
(`Map.set` on an existing key updates the value in place; on a new key it
appends; `Map.delete` preserves the order of the remaining entries). -/
abbrev Cache := List (String × CacheEntry)

/-- `const CACHE_TTL = 5 * 60 * 1000` (milliseconds). -/
def CACHE_TTL : Nat := 5 * 60 * 1000

/-- `urlCache.get(k)`. -/
def mapGet (c : Cache) (k : String) : Option CacheEntry :=
  (c.find? (fun kv => kv.1 == k)).map (fun kv => kv.2)

/-- `urlCache.set(k, v)`. -/
def mapSet (c : Cache) (k : String) (v : CacheEntry) : Cache :=
  if c.any (fun kv => kv.1 == k) then
    c.map (fun kv => if kv.1 == k then (k, v) else kv)
  else
    c ++ [(k, v)]

/-- The deletion test of `cleanCache`'s TTL pass:
`now - value.timestamp > CACHE_TTL`. -/
def expiredAt (now : Nat) (kv : String × CacheEntry) : Bool :=
  now - kv.2.timestamp > CACHE_TTL

/-- The first pass of `cleanCache`: delete every expired entry. -/
def ttlSweep (now : Nat) (c : Cache) : Cache :=
  c.filter (fun kv => ! expiredAt now kv)

/-- The capacity-sweep comparator
`(a, b) => a[1].timestamp - b[1].timestamp` (stable ascending). -/
def byTimestamp (a b : String × CacheEntry) : Bool :=
  a.2.timestamp ≤ b.2.timestamp

/-- The capacity pass of `cleanCache`, reached when more than 1000 entries
remain after the TTL pass: sort the entries ascending by `timestamp` and
delete the keys of all but the last 500. -/
def capacitySweep (c1 : Cache) : Cache :=
  let entries := c1.mergeSort byTimestamp
  let deleted := entries.take (entries.length - 500)
  c1.filter (fun kv => ! deleted.any (fun d => d.1 == kv.1))

/-- `cleanCache()`: the TTL pass, then the capacity pass when more than
1000 entries remain (`if (urlCache.size > 1000)`). -/
def cleanCache (now : Nat) (c : Cache) : Cache :=
  if (ttlSweep now c).length > 1000 then capacitySweep (ttlSweep now c)
  else ttlSweep now c

/-- The visible per-tab badge states the worker can write. -/
inductive BadgeDisplay where
  | loading
  | safeBadge
  | suspiciousBadge
  | maliciousBadge
  | unknownBadge
  | errorBadge
  | clearedBadge
  deriving Repr, DecidableEq

/-- `updateBadge(risk, tabId)`: the three recognized tiers, with the
`{ text: say, color: grey }` fallback for anything else. -/
def updateBadge (risk : Option String) : BadgeDisplay :=
  match risk with
  | some "safe" => .safeBadge
  | some "suspicious" => .suspiciousBadge
  | some "malicious" => .maliciousBadge
  | _ => .unknownBadge

/-- The ordered observable actions of one `scanUrl` call. -/
inductive Event where
  | setBadge (b : BadgeDisplay)
  | cacheLookup (key : String)
  | remoteCall (url : String)
  deriving Repr, DecidableEq

/-- `showNotification`: read `showNotifications` from storage and create one
alert unless the stored value is literally `false`
(`data.showNotifications !== false`); a missing key or an unreadable store
reads back as `none` and the alert still fires.  Returns the alert count. -/
def showNotificationAlerts (setting : Option Bool) : Nat :=
  if setting == some false then 0 else 1

/-- `url.toLowerCase()` (per-character ASCII case folding), written over the
character list so it evaluates by kernel reduction. -/
def jsToLower (s : String) : String := String.mk (s.data.map Char.toLower)

/-- `s.startsWith(pre)`, written over the character lists so it evaluates by
kernel reduction. -/
def jsStartsWith (s pre : String) : Bool := pre.data.isPrefixOf s.data

/-- The freshness test of `scanUrl`'s cache consult:
`cached && Date.now() - cached.timestamp < CACHE_TTL`. -/
def cacheFresh (now : Nat) (c : Cache) (key : String) : Bool :=
  match mapGet c key with
  | some e => now - e.timestamp < CACHE_TTL
  | none => false

/-- Everything one `scanUrl` call returns or effects: the resolved value
(`none` = resolved with `null`), the cache afterwards, the ordered event
trace, and how many notifications were created. -/
structure ScanOutcome where
  retVal : Option CheckResponse
  cache : Cache
  events : List Event
  alerts : Nat
  deriving Repr, DecidableEq

/-- The remote branch of `scanUrl` (no fresh cache entry): the `try/catch`
around `fetch` and `response.json()`.  On any caught failure — the fetch
rejecting, JSON parsing rejecting, or a truthy `result.error` — the badge is
set to the error display and the call resolves with `null`; nothing is
cached.  On success the result is cached under `cacheKey`, `cleanCache`
runs, the badge is set from `result.risk`, and a malicious risk invokes
`showNotification`.  Note the success test never consults the HTTP status. -/
def scanUrlRemote (fetchO : String → FetchOutcome) (setting : Option Bool)
    (now : Nat) (cache : Cache) (url : String) (cacheKey : String)
    (ev : List Event) : ScanOutcome :=
  let ev1 := ev ++ [Event.remoteCall url]
  match fetchO url with
  | .networkFailure =>
      { retVal := none, cache := cache,
        events := ev1 ++ [Event.setBadge .errorBadge], alerts := 0 }
  | .parseFailure _ =>
      { retVal := none, cache := cache,
        events := ev1 ++ [Event.setBadge .errorBadge], alerts := 0 }
  | .payload _ data =>
      if data.hasError then
        { retVal := none, cache := cache,
          events := ev1 ++ [Event.setBadge .errorBadge], alerts := 0 }
      else
        { retVal := some data,
          cache := cleanCache now (mapSet cache cacheKey { result := data, timestamp := now }),
          events := ev1 ++ [Event.setBadge (updateBadge data.risk)],
          alerts := if data.risk == some "malicious" then showNotificationAlerts setting else 0 }

/-- `scanUrl(url, tabId)`: set the loading badge, consult the cache under
the lowercased key, and on a fresh hit resolve with the cached result and
set the badge from its risk (no remote call, no notification); otherwise
take the remote branch. -/
def scanUrl (fetchO : String → FetchOutcome) (setting : Option Bool)
    (now : Nat) (cache : Cache) (url : String) : ScanOutcome :=
  let cacheKey := jsToLower url
  let ev := [Event.setBadge BadgeDisplay.loading, Event.cacheLookup cacheKey]
  match mapGet cache cacheKey with
  | some cached =>
      if now - cached.timestamp < CACHE_TTL then
        { retVal := some cached.result, cache := cache,
          events := ev ++ [Event.setBadge (updateBadge cached.result.risk)],
          alerts := 0 }
      else
        scanUrlRemote fetchO setting now cache url cacheKey ev
  | none => scanUrlRemote fetchO setting now cache url cacheKey ev

/-- The `chrome.tabs.onActivated` handler: scan when `tab.url` starts with
the string consisting of h, t, t, p; otherwise write the empty badge text
for the tab.  An absent `tab.url` is modelled as `""`, likewise ineligible. -/
def tabActivated (fetchO : String → FetchOutcome) (setting : Option Bool)
    (now : Nat) (cache : Cache) (url : String) : ScanOutcome :=
  if jsStartsWith url "http" then
    scanUrl fetchO setting now cache url
  else
    { retVal := none, cache := cache,
      events := [Event.setBadge BadgeDisplay.clearedBadge], alerts := 0 }

/-- What `sendResponse` delivers for one `scanUrl` RPC message. -/
inductive RpcResponse where
  | verdict (r : CheckResponse)
  | nullResult
  | errorPayload (msg : String)
  deriving Repr, DecidableEq

/-- The `scanUrl` arm of the `chrome.runtime.onMessage` router:
`scanUrl(...).then(result => sendResponse(result)).catch(e => sendResponse({error: e.message}))`.
`scanUrl` catches its own remote failures and resolves with `null`, so the
`.then` arm delivers that `null`; the `.catch` arm would require the promise
itself to reject, which the modelled `scanUrl` never does. -/
def handleScanUrlMessage (fetchO : String → FetchOutcome) (setting : Option Bool)
    (now : Nat) (cache : Cache) (url : String) : RpcResponse :=
  match (scanUrl fetchO setting now cache url).retVal with
  | some r => .verdict r
  | none => .nullResult

/-- The cache-store step of a successful scan:
`urlCache.set(url.toLowerCase(), { result, timestamp: Date.now() }); cleanCache();`. -/
def cachePut (now : Nat) (c : Cache) (url : String) (data : CheckResponse) : Cache :=
  cleanCache now (mapSet c (jsToLower url) { result := data, timestamp := now })

/-- One store operation of a put sequence. -/
structure PutOp where
  now : Nat
  url : String
  data : CheckResponse

/-- A sequence of cache stores, applied left to right. -/
def applyPuts : List PutOp → Cache → Cache
  | [], c => c
  | op :: ops, c => applyPuts ops (cachePut op.now c op.url op.data)

/-- The `Map` invariant: keys are pairwise distinct. -/
def KeysNodup (c : Cache) : Prop := (c.map Prod.fst).Nodup

instance (c : Cache) : Decidable (KeysNodup c) := by
  unfold KeysNodup; infer_instance

/-- Worker of `jsSetDedup`, keeping the set of already-seen elements. -/
def jsSetDedupAux (seen : List String) : List String → List String
  | [] => []
  | x :: xs =>
      if seen.contains x then jsSetDedupAux seen xs
      else x :: jsSetDedupAux (x :: seen) xs

/-- `[...new Set(arr)]`: first occurrence of each element, in input order. -/
def jsSetDedup (l : List String) : List String := jsSetDedupAux [] l

/-- The `stats` record of `scanPageLinks`:
`{ total: links.length, safe: 0, suspicious: 0, malicious: 0 }` updated by
the loop, persisted wholesale under the page URL when the loop ends. -/
structure LinkStats where
  total : Nat
  safe : Nat
  suspicious : Nat
  malicious : Nat
  deriving Repr, DecidableEq

/-- The observable outcome of one `scanPageLinks` run: the final `stats`,
the `results` array forwarded for link highlighting, and how many remote
`fetch` calls were issued. -/
structure BulkOutcome where
  stats : LinkStats
  results : List (String × CheckResponse)
  remoteCalls : Nat
  deriving Repr, DecidableEq

/-- One iteration of `for (const link of links.slice(0, 50))`: a `fetch` is
issued; a caught failure (fetch or JSON parse rejecting) skips the link; a
parsed payload is pushed onto `results` unconditionally — even when it
carries an `error` field — and then exactly the recognized `risk` values
bump a counter. -/
def scanLinkStep (fetchO : String → FetchOutcome) (acc : BulkOutcome)
    (link : String) : BulkOutcome :=
  let acc1 := { acc with remoteCalls := acc.remoteCalls + 1 }
  match fetchO link with
  | .networkFailure => acc1
  | .parseFailure _ => acc1
  | .payload _ data =>
      let acc2 := { acc1 with results := acc1.results ++ [(link, data)] }
      if data.risk == some "safe" then
        { acc2 with stats := { acc2.stats with safe := acc2.stats.safe + 1 } }
      else if data.risk == some "suspicious" then
        { acc2 with stats := { acc2.stats with suspicious := acc2.stats.suspicious + 1 } }
      else if data.risk == some "malicious" then
        { acc2 with stats := { acc2.stats with malicious := acc2.stats.malicious + 1 } }
      else acc2

/-- `scanPageLinks`: deduplicate the extracted links with `Set` semantics,
set `total` to the deduplicated length, then scan only the first 50. -/
def scanPageLinks (fetchO : String → FetchOutcome) (rawLinks : List String) :
    BulkOutcome :=
  let links := jsSetDedup rawLinks
  let init : BulkOutcome :=
    { stats := { total := links.length, safe := 0, suspicious := 0, malicious := 0 },
      results := [], remoteCalls := 0 }
  (links.take 50).foldl (scanLinkStep fetchO) init

/-- `urlCache.delete(k)`. -/
def mapDelete (c : Cache) (k : String) : Cache :=
  c.filter (fun kv => kv.1 != k)

/-- The failure condition of `scanUrl`'s remote branch: the `fetch` call
rejected, `response.json()` rejected, or the parsed payload has a truthy
`error` field.  The HTTP status is not part of the condition. -/
def fetchFailed (o : FetchOutcome) : Bool :=
  match o with
  | .networkFailure => true
  | .parseFailure _ => true
  | .payload _ d => d.hasError

/-- The `risk` field a `scanPageLinks` loop iteration can test: present
exactly when a payload was parsed (whether or not it also carries `error`). -/
def parsedRisk (o : FetchOutcome) : Option String :=
  match o with
  | .payload _ d => d.risk
  | _ => none

/-- The parsed payload of a fetch outcome, when there is one. -/
def payloadOf (o : FetchOutcome) : Option CheckResponse :=
  match o with
  | .payload _ d => some d
  | _ => none

/-- A response with neither `risk` nor `error` set, used in the concrete
test caches below. -/
def blankResponse : CheckResponse := { risk := none, errorField := none }

/-- Pairwise-distinct lowercase string keys for the concrete test caches:
`repKey i` is the string of `i + 1` letters a. -/
def repKey (i : Nat) : String := String.mk (List.replicate (i + 1) 'a')

/-- A concrete cache of `n` entries with distinct keys and chosen
timestamps. -/
def rangeCache (n : Nat) (ts : Nat → Nat) : Cache :=
  (List.range n).map (fun i => (repKey i, { result := blankResponse, timestamp := ts i }))

theorem repKey_injective : Function.Injective repKey := by
  intro i j h
  have h2 : List.replicate (i + 1) 'a' = List.replicate (j + 1) 'a' :=
    congrArg String.data h
  have h3 := congrArg List.length h2
  simpa using h3

theorem keysNodup_rangeCache (n : Nat) (ts : Nat → Nat) : KeysNodup (rangeCache n ts) := by
  unfold KeysNodup rangeCache
  rw [List.map_map]
  exact List.Nodup.map (fun i j h => repKey_injective h) (List.nodup_range n)

theorem length_rangeCache (n : Nat) (ts : Nat → Nat) : (rangeCache n ts).length = n := by
  simp [rangeCache]

theorem keysNodup_cons {kv : String × CacheEntry} {t : Cache} (h : KeysNodup (kv :: t)) :
    KeysNodup t ∧ kv.1 ∉ t.map Prod.fst := by
  unfold KeysNodup at *
  rw [List.map_cons, List.nodup_cons] at h
  exact ⟨h.2, h.1⟩

theorem mapGet_eq_some_of_mem {c : Cache} {k : String} {e : CacheEntry}
    (hnd : KeysNodup c) (hmem : (k, e) ∈ c) : mapGet c k = some e := by
  induction c with
  | nil => cases hmem
  | cons kv t ih =>
      obtain ⟨hndt, hknot⟩ := keysNodup_cons hnd
      rcases List.mem_cons.mp hmem with h | h
      · rw [← h]
        simp [mapGet, List.find?_cons]
      · have hne : (kv.1 == k) = false := by
          rw [beq_eq_false_iff_ne]
          intro hek
          exact hknot (hek ▸ List.mem_map.mpr ⟨(k, e), h, rfl⟩)
        have := ih hndt h
        simpa [mapGet, List.find?_cons, hne] using this

theorem mem_mapSet_self (c : Cache) (k : String) (v : CacheEntry) :
    (k, v) ∈ mapSet c k v := by
  unfold mapSet
  split
  · next hany =>
      rcases List.any_eq_true.mp hany with ⟨kv, hkv, hb⟩
      refine List.mem_map.mpr ⟨kv, hkv, ?_⟩
      simp [hb]
  · exact List.mem_append.mpr (Or.inr (by simp))

theorem keysNodup_mapSet (k : String) (v : CacheEntry) {c : Cache}
    (hnd : KeysNodup c) : KeysNodup (mapSet c k v) := by
  unfold mapSet
  split
  · next hany =>
      have hkeys : (c.map (fun kv => if kv.1 == k then (k, v) else kv)).map Prod.fst
          = c.map Prod.fst := by
        rw [List.map_map]
        apply List.map_congr_left
        intro kv hkv
        by_cases hb : (kv.1 == k) = true
        · have hbe : kv.1 = k := by simpa using hb
          simp [hb, hbe]
        · have hbe : ¬ kv.1 = k := by simpa using hb
          simp [hb, hbe]
      unfold KeysNodup
      rw [hkeys]
      exact hnd
  · next hany =>
      have hfalse : c.any (fun kv => kv.1 == k) = false := by
        rwa [Bool.not_eq_true] at hany
      unfold KeysNodup
      rw [List.map_append]
      refine List.nodup_append.mpr ⟨hnd, by simp, ?_⟩
      intro a ha hb
      simp only [List.map_cons, List.map_nil, List.mem_singleton] at hb
      subst hb
      rcases List.mem_map.mp ha with ⟨kv, hkv, hfst⟩
      have hkv2 := List.any_eq_false.mp hfalse kv hkv
      exact hkv2 (by simpa using hfst)

theorem keysNodup_of_sublist {c c2 : Cache} (hs : c2.Sublist c) (hnd : KeysNodup c) :
    KeysNodup c2 :=
  List.Nodup.sublist (List.Sublist.map Prod.fst hs) hnd

theorem keysNodup_ttlSweep (now : Nat) {c : Cache} (hnd : KeysNodup c) :
    KeysNodup (ttlSweep now c) :=
  keysNodup_of_sublist (List.filter_sublist c) hnd

theorem capacitySweep_sublist (c1 : Cache) : (capacitySweep c1).Sublist c1 := by
  simp only [capacitySweep]
  exact List.filter_sublist c1

theorem keysNodup_cleanCache (now : Nat) {c : Cache} (hnd : KeysNodup c) :
    KeysNodup (cleanCache now c) := by
  unfold cleanCache
  split
  · exact keysNodup_of_sublist (capacitySweep_sublist _) (keysNodup_ttlSweep now hnd)
  · exact keysNodup_ttlSweep now hnd

theorem mapGet_mapDelete_self (c : Cache) (k : String) :
    mapGet (mapDelete c k) k = none := by
  unfold mapGet mapDelete
  rw [List.find?_eq_none.mpr, Option.map_none']
  intro kv hkv
  have := (List.mem_filter.mp hkv).2
  simp only [bne_iff_ne, ne_eq] at this
  simpa using this

theorem mapSet_append_of_keys_ne {c : Cache} {k : String} (v : CacheEntry)
    (h : ∀ kv ∈ c, kv.1 ≠ k) : mapSet c k v = c ++ [(k, v)] := by
  have hany : c.any (fun kv => kv.1 == k) = false := by
    rw [List.any_eq_false]
    intro kv hkv
    simpa using h kv hkv
  unfold mapSet
  rw [hany]
  simp

theorem scanUrl_fresh_hit {f : String → FetchOutcome} {s : Option Bool}
    {now : Nat} {c : Cache} {url : String} {e : CacheEntry}
    (hm : mapGet c (jsToLower url) = some e)
    (hfresh : now - e.timestamp < CACHE_TTL) :
    scanUrl f s now c url =
      { retVal := some e.result, cache := c,
        events := [Event.setBadge BadgeDisplay.loading,
                   Event.cacheLookup (jsToLower url),
                   Event.setBadge (updateBadge e.result.risk)],
        alerts := 0 } := by
  simp only [scanUrl]
  rw [hm]
  simp [hfresh]

theorem scanUrl_eq_remote {f : String → FetchOutcome} {s : Option Bool}
    {now : Nat} {c : Cache} {url : String}
    (h : cacheFresh now c (jsToLower url) = false) :
    scanUrl f s now c url =
      scanUrlRemote f s now c url (jsToLower url)
        [Event.setBadge BadgeDisplay.loading, Event.cacheLookup (jsToLower url)] := by
  simp only [scanUrl]
  unfold cacheFresh at h
  cases hm : mapGet c (jsToLower url) with
  | none => rfl
  | some e =>
      rw [hm] at h
      have h2 : ¬ (now - e.timestamp < CACHE_TTL) := by simpa using h
      simp [h2]

theorem scanUrlRemote_failed {f : String → FetchOutcome} {s : Option Bool}
    {now : Nat} {c : Cache} {url key : String} {ev : List Event}
    (h : fetchFailed (f url) = true) :
    scanUrlRemote f s now c url key ev =
      { retVal := none, cache := c,
        events := ev ++ [Event.remoteCall url, Event.setBadge BadgeDisplay.errorBadge],
        alerts := 0 } := by
  unfold fetchFailed at h
  unfold scanUrlRemote
  cases hf : f url with
  | networkFailure => simp
  | parseFailure st => simp
  | payload st d =>
      rw [hf] at h
      have h2 : d.hasError = true := by simpa using h
      simp [h2]

theorem scanUrlRemote_success {f : String → FetchOutcome} {s : Option Bool}
    {now : Nat} {c : Cache} {url key : String} {ev : List Event}
    {st : Bool} {d : CheckResponse}
    (hf : f url = .payload st d) (he : d.hasError = false) :
    scanUrlRemote f s now c url key ev =
      { retVal := some d,
        cache := cleanCache now (mapSet c key { result := d, timestamp := now }),
        events := ev ++ [Event.remoteCall url, Event.setBadge (updateBadge d.risk)],
        alerts := if d.risk == some "malicious" then showNotificationAlerts s else 0 } := by
  unfold scanUrlRemote
  rw [hf]
  simp [he]

theorem scanUrlRemote_obs_indep (f : String → FetchOutcome) (s : Option Bool)
    (now : Nat) (c1 c2 : Cache) (url key : String) (ev : List Event) :
    (scanUrlRemote f s now c1 url key ev).retVal = (scanUrlRemote f s now c2 url key ev).retVal ∧
    (scanUrlRemote f s now c1 url key ev).events = (scanUrlRemote f s now c2 url key ev).events ∧
    (scanUrlRemote f s now c1 url key ev).alerts = (scanUrlRemote f s now c2 url key ev).alerts := by
  unfold scanUrlRemote
  cases hf : f url with
  | networkFailure => simp
  | parseFailure st => simp
  | payload st d =>
      by_cases he : d.hasError = true
      · simp [he]
      · simp [he]

theorem scanUrlRemote_events_shape (f : String → FetchOutcome) (s : Option Bool)
    (now : Nat) (c : Cache) (url key : String) (ev : List Event) :
    ∃ b, (scanUrlRemote f s now c url key ev).events =
      ev ++ [Event.remoteCall url, Event.setBadge b] := by
  unfold scanUrlRemote
  cases hf : f url with
  | networkFailure => exact ⟨BadgeDisplay.errorBadge, by simp⟩
  | parseFailure st => exact ⟨BadgeDisplay.errorBadge, by simp⟩
  | payload st d =>
      by_cases he : d.hasError = true
      · exact ⟨BadgeDisplay.errorBadge, by simp [he]⟩
      · exact ⟨updateBadge d.risk, by simp [he]⟩

theorem cacheFresh_true_elim {now : Nat} {c : Cache} {key : String}
    (h : cacheFresh now c key = true) :
    ∃ e, mapGet c key = some e ∧ now - e.timestamp < CACHE_TTL := by
  unfold cacheFresh at h
  cases hm : mapGet c key with
  | none => rw [hm] at h; cases h
  | some e =>
      rw [hm] at h
      simp only [decide_eq_true_eq] at h
      exact ⟨e, rfl, h⟩

/-- C3: the cache-consult step of `scanUrl` treats a cached entry as absent
once the elapsed time since its `timestamp` exceeds `CACHE_TTL` (5 minutes),
even though the entry is still physically present: the scan issues the
remote call for the URL, and its resolved value, full event trace (hence
all badge writes) and alert count coincide with those of the same scan run
against the cache with the entry physically deleted. -/
theorem claim_C3 (f : String → FetchOutcome) (s : Option Bool) (now : Nat)
    (c : Cache) (url : String) (e : CacheEntry)
    (hm : mapGet c (jsToLower url) = some e)
    (hstale : now - e.timestamp > CACHE_TTL) :
    Event.remoteCall url ∈ (scanUrl f s now c url).events ∧
    (scanUrl f s now c url).retVal = (scanUrl f s now (mapDelete c (jsToLower url)) url).retVal ∧
    (scanUrl f s now c url).events = (scanUrl f s now (mapDelete c (jsToLower url)) url).events ∧
    (scanUrl f s now c url).alerts = (scanUrl f s now (mapDelete c (jsToLower url)) url).alerts := by
  have hfresh1 : cacheFresh now c (jsToLower url) = false := by
    unfold cacheFresh
    rw [hm]
    simp only [decide_eq_false_iff_not]
    omega
  have hfresh2 : cacheFresh now (mapDelete c (jsToLower url)) (jsToLower url) = false := by
    unfold cacheFresh
    rw [mapGet_mapDelete_self]
  rw [scanUrl_eq_remote hfresh1, scanUrl_eq_remote hfresh2]
  obtain ⟨hr, hev, hal⟩ := scanUrlRemote_obs_indep f s now c (mapDelete c (jsToLower url))
    url (jsToLower url) [Event.setBadge BadgeDisplay.loading, Event.cacheLookup (jsToLower url)]
  refine ⟨?_, hr, hev, hal⟩
  obtain ⟨b, hb⟩ := scanUrlRemote_events_shape f s now c url (jsToLower url)
    [Event.setBadge BadgeDisplay.loading, Event.cacheLookup (jsToLower url)]
  rw [hb]
  simp

/-- Witness for C3 at a concrete stale entry (stored at 0, consulted at
300001 ms, one past the TTL), with a differing-case URL. -/
theorem claim_C3_witness :
    mapGet [("http://a", { result := blankResponse, timestamp := 0 })] (jsToLower "http://A") =
      some { result := blankResponse, timestamp := 0 } ∧
    300001 - (0 : Nat) > CACHE_TTL ∧
    Event.remoteCall "http://A" ∈
      (scanUrl (fun _ => FetchOutcome.networkFailure) none 300001
        [("http://a", { result := blankResponse, timestamp := 0 })] "http://A").events := by
  refine ⟨by decide, by decide, ?_⟩
  exact (claim_C3 (fun _ => FetchOutcome.networkFailure) none 300001
    [("http://a", { result := blankResponse, timestamp := 0 })] "http://A"
    { result := blankResponse, timestamp := 0 } (by decide) (by decide)).1

/-- C4 counterexample: a response with a non-2xx HTTP status
(`response.ok = false`) whose body parses and carries no `error` field is
not treated as a failure by `scanUrl` — the code never reads the status.
The parsed value is returned (not null), the result is stored in the cache,
and the Error badge is never set, contradicting the claim that a non-2xx
status fails the scan. -/
theorem claim_C4_counterexample :
    (scanUrl (fun _ => FetchOutcome.payload false { risk := some "safe", errorField := none })
        none 0 [] "http://x").retVal = some { risk := some "safe", errorField := none } ∧
    (scanUrl (fun _ => FetchOutcome.payload false { risk := some "safe", errorField := none })
        none 0 [] "http://x").cache ≠ [] ∧
    Event.setBadge BadgeDisplay.errorBadge ∉
      (scanUrl (fun _ => FetchOutcome.payload false { risk := some "safe", errorField := none })
        none 0 [] "http://x").events := by
  decide

/-- C4 (amended): the failures the remote branch recognizes are exactly a
rejected fetch, a rejected `response.json()`, and a parsed payload with a
truthy `error` field (`fetchFailed`); a non-2xx status alone, or a payload
merely lacking expected fields, is not a failure.  On a recognized failure
with no fresh cache entry, `scanUrl` sets the tab badge to the Error
display, resolves with null, leaves the cache unchanged (stores nothing),
and issues exactly one remote call with no retry. -/
theorem claim_C4 (f : String → FetchOutcome) (s : Option Bool) (now : Nat)
    (c : Cache) (url : String)
    (hmiss : cacheFresh now c (jsToLower url) = false)
    (hfail : fetchFailed (f url) = true) :
    scanUrl f s now c url =
      { retVal := none, cache := c,
        events := [Event.setBadge BadgeDisplay.loading,
                   Event.cacheLookup (jsToLower url),
                   Event.remoteCall url, Event.setBadge BadgeDisplay.errorBadge],
        alerts := 0 } := by
  rw [scanUrl_eq_remote hmiss, scanUrlRemote_failed hfail]
  rfl

/-- Witness for C4: a concrete network failure on an empty cache. -/
theorem claim_C4_witness :
    cacheFresh 0 [] (jsToLower "http://x") = false ∧
    fetchFailed ((fun _ => FetchOutcome.networkFailure) "http://x") = true ∧
    (scanUrl (fun _ => FetchOutcome.networkFailure) none 0 [] "http://x").retVal = none := by
  refine ⟨by decide, by decide, ?_⟩
  rw [claim_C4 (fun _ => FetchOutcome.networkFailure) none 0 [] "http://x" (by decide) (by decide)]

/-- C5 counterexample: the eligibility gate of the tab listeners is
`startsWith` on the four-character prefix, not on the two schemes: a URL
beginning httpx (which begins with neither scheme prefix) is scanned — a
remote call is issued and the badge is never cleared — contradicting the
claim that every URL not beginning with the HTTP or HTTPS scheme prefix is
skipped with a cleared badge. -/
theorem claim_C5_counterexample :
    jsStartsWith "httpx://a" "http://" = false ∧
    jsStartsWith "httpx://a" "https://" = false ∧
    Event.remoteCall "httpx://a" ∈
      (tabActivated (fun _ => FetchOutcome.networkFailure) none 0 [] "httpx://a").events ∧
    Event.setBadge BadgeDisplay.clearedBadge ∉
      (tabActivated (fun _ => FetchOutcome.networkFailure) none 0 [] "httpx://a").events := by
  decide

/-- C5 (amended): the gate tests the four-character prefix.  For any URL
without that prefix the tab-activation handler contacts neither the cache
nor the remote service and writes the cleared (empty-text) badge; URLs with
the prefix — including ones not starting with an HTTP(S) scheme, as in the
counterexample — are scanned. -/
theorem claim_C5 (f : String → FetchOutcome) (s : Option Bool) (now : Nat)
    (c : Cache) (url : String) (h : jsStartsWith url "http" = false) :
    tabActivated f s now c url =
      { retVal := none, cache := c,
        events := [Event.setBadge BadgeDisplay.clearedBadge], alerts := 0 } ∧
    (∀ u, Event.remoteCall u ∉ (tabActivated f s now c url).events) ∧
    (∀ k, Event.cacheLookup k ∉ (tabActivated f s now c url).events) := by
  have h1 : tabActivated f s now c url =
      { retVal := none, cache := c,
        events := [Event.setBadge BadgeDisplay.clearedBadge], alerts := 0 } := by
    unfold tabActivated
    rw [h]
    simp
  refine ⟨h1, ?_, ?_⟩ <;> intro x <;> rw [h1] <;> simp

/-- Witness for C5 at a browser-internal URL. -/
theorem claim_C5_witness :
    jsStartsWith "chrome://settings" "http" = false ∧
    (tabActivated (fun _ => FetchOutcome.networkFailure) none 0 [] "chrome://settings").events =
      [Event.setBadge BadgeDisplay.clearedBadge] := by
  refine ⟨by decide, ?_⟩
  rw [(claim_C5 (fun _ => FetchOutcome.networkFailure) none 0 [] "chrome://settings" (by decide)).1]

/-- C8 counterexample: on a failing scan (here a network failure) the RPC
caller receives the resolved null — `sendResponse(null)` — not an error
payload: `scanUrl` swallows its own failure and resolves with null, so the
handler's `.catch` arm never runs.  This contradicts the claim that a
failure is surfaced to the caller as an error payload rather than an
absent/null result. -/
theorem claim_C8_counterexample :
    handleScanUrlMessage (fun _ => FetchOutcome.networkFailure) none 0 [] "http://a" =
      RpcResponse.nullResult ∧
    (scanUrl (fun _ => FetchOutcome.networkFailure) none 0 [] "http://a").retVal = none := by
  decide

/-- C8 (amended): the response delivered for a `scanUrl` RPC message is the
verdict object when the scan succeeds and the null result when it fails;
the error-payload branch is unreachable because the modelled `scanUrl`
resolves rather than rejects on failure. -/
theorem claim_C8 (f : String → FetchOutcome) (s : Option Bool) (now : Nat)
    (c : Cache) (url : String) :
    ((scanUrl f s now c url).retVal = none →
      handleScanUrlMessage f s now c url = RpcResponse.nullResult) ∧
    (∀ r, (scanUrl f s now c url).retVal = some r →
      handleScanUrlMessage f s now c url = RpcResponse.verdict r) ∧
    (∀ msg, handleScanUrlMessage f s now c url ≠ RpcResponse.errorPayload msg) := by
  unfold handleScanUrlMessage
  refine ⟨?_, ?_, ?_⟩
  · intro h
    rw [h]
  · intro r h
    rw [h]
  · intro msg
    cases h : (scanUrl f s now c url).retVal <;> simp

/-- Witness for C8: a failing scan answers null, a succeeding scan answers
the verdict, and neither is an error payload. -/
theorem claim_C8_witness :
    handleScanUrlMessage (fun _ => FetchOutcome.parseFailure true) none 0 [] "http://b" =
      RpcResponse.nullResult ∧
    handleScanUrlMessage (fun _ => FetchOutcome.payload true blankResponse) none 0 [] "http://b" =
      RpcResponse.verdict blankResponse ∧
    handleScanUrlMessage (fun _ => FetchOutcome.parseFailure true) none 0 [] "http://b" ≠
      RpcResponse.errorPayload "boom" := by
  refine ⟨?_, ?_, ?_⟩
  · exact (claim_C8 (fun _ => FetchOutcome.parseFailure true) none 0 [] "http://b").1 (by decide)
  · exact (claim_C8 (fun _ => FetchOutcome.payload true blankResponse) none 0 [] "http://b").2.1
      blankResponse (by decide)
  · exact (claim_C8 (fun _ => FetchOutcome.parseFailure true) none 0 [] "http://b").2.2 "boom"

/-- C9: for every scan of an eligible URL, the first two observable actions
are the Loading badge write followed by the cache consult — so the Loading
badge is set before any I/O — and every remote call occurs strictly after
both. -/
theorem claim_C9 (f : String → FetchOutcome) (s : Option Bool) (now : Nat)
    (c : Cache) (url : String) (h : jsStartsWith url "http" = true) :
    (scanUrl f s now c url).events.take 2 =
      [Event.setBadge BadgeDisplay.loading, Event.cacheLookup (jsToLower url)] ∧
    ∀ u, Event.remoteCall u ∈ (scanUrl f s now c url).events →
      Event.remoteCall u ∈ (scanUrl f s now c url).events.drop 2 := by
  by_cases hfr : cacheFresh now c (jsToLower url) = true
  · obtain ⟨e, hm, hf2⟩ := cacheFresh_true_elim hfr
    rw [scanUrl_fresh_hit hm hf2]
    refine ⟨by simp, ?_⟩
    intro u hu
    simp at hu
  · have hfr2 : cacheFresh now c (jsToLower url) = false := by
      simpa using hfr
    rw [scanUrl_eq_remote hfr2]
    obtain ⟨b, hb⟩ := scanUrlRemote_events_shape f s now c url (jsToLower url)
      [Event.setBadge BadgeDisplay.loading, Event.cacheLookup (jsToLower url)]
    rw [hb]
    refine ⟨by simp, ?_⟩
    intro u hu
    simp at hu ⊢
    exact hu

/-- Witness for C9: a concrete eligible scan whose trace starts with the
Loading badge and cache consult, with the remote call after them. -/
theorem claim_C9_witness :
    jsStartsWith "http://w" "http" = true ∧
    (scanUrl (fun _ => FetchOutcome.networkFailure) none 0 [] "http://w").events.take 2 =
      [Event.setBadge BadgeDisplay.loading, Event.cacheLookup (jsToLower "http://w")] ∧
    Event.remoteCall "http://w" ∈
      (scanUrl (fun _ => FetchOutcome.networkFailure) none 0 [] "http://w").events.drop 2 := by
  refine ⟨by decide,
    (claim_C9 (fun _ => FetchOutcome.networkFailure) none 0 [] "http://w" (by decide)).1, ?_⟩
  exact (claim_C9 (fun _ => FetchOutcome.networkFailure) none 0 [] "http://w" (by decide)).2
    "http://w" (by decide)

theorem scanUrlRemote_alerts_disabled (f : String → FetchOutcome) (now : Nat)
    (c : Cache) (url key : String) (ev : List Event) :
    (scanUrlRemote f (some false) now c url key ev).alerts = 0 := by
  unfold scanUrlRemote
  cases hf : f url with
  | networkFailure => rfl
  | parseFailure st => rfl
  | payload st d =>
      by_cases he : d.hasError = true
      · simp [he]
      · simp [he, showNotificationAlerts]

/-- C1 counterexample: a scan answered from the cache that yields a
Malicious verdict produces zero alerts even with notifications enabled
(`showNotification` is only invoked on the remote-success path), which
contradicts the claim that every Malicious-yielding scan call — including
one answered from the cache — produces exactly one alert. -/
theorem claim_C1_counterexample :
    (scanUrl (fun _ => FetchOutcome.networkFailure) (some true) 1
        [("http://evil.com/a",
          { result := { risk := some "malicious", errorField := none }, timestamp := 0 })]
        "http://evil.com/a").retVal =
      some { risk := some "malicious", errorField := none } ∧
    (scanUrl (fun _ => FetchOutcome.networkFailure) (some true) 1
        [("http://evil.com/a",
          { result := { risk := some "malicious", errorField := none }, timestamp := 0 })]
        "http://evil.com/a").alerts = 0 := by
  decide

/-- C1 (amended): an alert fires exactly once per scan call that obtains a
Malicious verdict from a fresh remote response, whenever the persisted
notifications setting is not literally false — so a missing setting or an
unreadable store fails open; with the setting false, every scan produces
zero alerts; and a scan answered from a fresh cache entry produces zero
alerts even when the cached verdict is Malicious. -/
theorem claim_C1 :
    (∀ (f : String → FetchOutcome) (s : Option Bool) (now : Nat) (c : Cache)
        (url : String) (st : Bool) (d : CheckResponse),
      cacheFresh now c (jsToLower url) = false →
      f url = FetchOutcome.payload st d → d.hasError = false →
      d.risk = some "malicious" → s ≠ some false →
      (scanUrl f s now c url).alerts = 1) ∧
    (∀ (f : String → FetchOutcome) (now : Nat) (c : Cache) (url : String),
      (scanUrl f (some false) now c url).alerts = 0) ∧
    (∀ (f : String → FetchOutcome) (s : Option Bool) (now : Nat) (c : Cache)
        (url : String),
      cacheFresh now c (jsToLower url) = true →
      (scanUrl f s now c url).alerts = 0) := by
  refine ⟨?_, ?_, ?_⟩
  · intro f s now c url st d hmiss hf he hr hs
    rw [scanUrl_eq_remote hmiss, scanUrlRemote_success hf he]
    simp [hr, showNotificationAlerts, hs]
  · intro f now c url
    by_cases hfr : cacheFresh now c (jsToLower url) = true
    · obtain ⟨e, hm, h2⟩ := cacheFresh_true_elim hfr
      rw [scanUrl_fresh_hit hm h2]
    · rw [scanUrl_eq_remote (by simpa using hfr)]
      exact scanUrlRemote_alerts_disabled f now c url (jsToLower url) _
  · intro f s now c url hfr
    obtain ⟨e, hm, h2⟩ := cacheFresh_true_elim hfr
    rw [scanUrl_fresh_hit hm h2]

/-- Witness for C1: a fresh remote Malicious verdict alerts once even with
the setting unreadable (fail open), alerts zero times when the setting is
false, and a fresh cache hit on a Malicious entry alerts zero times. -/
theorem claim_C1_witness :
    cacheFresh 0 [] (jsToLower "http://evil.test/") = false ∧
    (scanUrl (fun _ => FetchOutcome.payload true { risk := some "malicious", errorField := none })
        none 0 [] "http://evil.test/").alerts = 1 ∧
    (scanUrl (fun _ => FetchOutcome.payload true { risk := some "malicious", errorField := none })
        (some false) 0 [] "http://evil.test/").alerts = 0 ∧
    cacheFresh 1 [("http://evil.test/",
        { result := { risk := some "malicious", errorField := none }, timestamp := 0 })]
      (jsToLower "http://evil.test/") = true ∧
    (scanUrl (fun _ => FetchOutcome.networkFailure) (some true) 1
        [("http://evil.test/",
          { result := { risk := some "malicious", errorField := none }, timestamp := 0 })]
        "http://evil.test/").alerts = 0 := by
  refine ⟨by decide, ?_, ?_, by decide, ?_⟩
  · exact claim_C1.1 (fun _ => FetchOutcome.payload true { risk := some "malicious", errorField := none })
      none 0 [] "http://evil.test/" true { risk := some "malicious", errorField := none }
      (by decide) rfl (by decide) rfl (by decide)
  · exact claim_C1.2.1 (fun _ => FetchOutcome.payload true { risk := some "malicious", errorField := none })
      0 [] "http://evil.test/"
  · exact claim_C1.2.2 (fun _ => FetchOutcome.networkFailure) (some true) 1
      [("http://evil.test/",
        { result := { risk := some "malicious", errorField := none }, timestamp := 0 })]
      "http://evil.test/" (by decide)

/-- C7: (1) a scan whose lowercased key has a fresh cache entry performs no
remote call, resolves with the cached verdict, sets the badge from the
cached risk, leaves the cache unchanged and fires no alert; (2) two URLs
with the same case-folded key hit the same entry and resolve identically;
(3) after a successful scan that stored its verdict (with no capacity sweep
triggered), a second scan of the same logical URL — in any letter case —
within the TTL (in particular within 1 second) resolves with that cached
verdict and issues no remote call. -/
theorem claim_C7 :
    (∀ (f : String → FetchOutcome) (s : Option Bool) (now : Nat) (c : Cache)
        (url : String) (e : CacheEntry),
      mapGet c (jsToLower url) = some e → now - e.timestamp < CACHE_TTL →
      scanUrl f s now c url =
        { retVal := some e.result, cache := c,
          events := [Event.setBadge BadgeDisplay.loading,
                     Event.cacheLookup (jsToLower url),
                     Event.setBadge (updateBadge e.result.risk)],
          alerts := 0 }) ∧
    (∀ (f : String → FetchOutcome) (s : Option Bool) (now : Nat) (c : Cache)
        (url1 url2 : String) (e : CacheEntry),
      jsToLower url1 = jsToLower url2 →
      mapGet c (jsToLower url1) = some e → now - e.timestamp < CACHE_TTL →
      (scanUrl f s now c url1).retVal = (scanUrl f s now c url2).retVal) ∧
    (∀ (f f2 : String → FetchOutcome) (s s2 : Option Bool) (now t2 : Nat)
        (c : Cache) (url url2 : String) (st : Bool) (d : CheckResponse),
      KeysNodup c →
      cacheFresh now c (jsToLower url) = false →
      f url = FetchOutcome.payload st d → d.hasError = false →
      (ttlSweep now (mapSet c (jsToLower url) { result := d, timestamp := now })).length ≤ 1000 →
      jsToLower url2 = jsToLower url →
      t2 - now < CACHE_TTL →
      (scanUrl f2 s2 t2 (scanUrl f s now c url).cache url2).retVal = some d ∧
      ∀ u, Event.remoteCall u ∉ (scanUrl f2 s2 t2 (scanUrl f s now c url).cache url2).events) := by
  refine ⟨?_, ?_, ?_⟩
  · intro f s now c url e hm hfr
    exact scanUrl_fresh_hit hm hfr
  · intro f s now c url1 url2 e hkey hm hfr
    have hm2 : mapGet c (jsToLower url2) = some e := hkey ▸ hm
    rw [scanUrl_fresh_hit hm hfr, scanUrl_fresh_hit hm2 hfr]
  · intro f f2 s s2 now t2 c url url2 st d hnd hmiss hf he hlen hkey hfr2
    have hcache : (scanUrl f s now c url).cache =
        ttlSweep now (mapSet c (jsToLower url) { result := d, timestamp := now }) := by
      rw [scanUrl_eq_remote hmiss, scanUrlRemote_success hf he]
      show cleanCache now (mapSet c (jsToLower url) { result := d, timestamp := now }) = _
      unfold cleanCache
      rw [if_neg (by omega)]
    have hnd2 : KeysNodup (ttlSweep now (mapSet c (jsToLower url) { result := d, timestamp := now })) :=
      keysNodup_ttlSweep now (keysNodup_mapSet (jsToLower url) _ hnd)
    have hmem : ((jsToLower url), ({ result := d, timestamp := now } : CacheEntry)) ∈
        ttlSweep now (mapSet c (jsToLower url) { result := d, timestamp := now }) := by
      unfold ttlSweep
      rw [List.mem_filter]
      refine ⟨mem_mapSet_self c (jsToLower url) _, ?_⟩
      simp [expiredAt]
    have hget2 : mapGet (scanUrl f s now c url).cache (jsToLower url2) =
        some { result := d, timestamp := now } := by
      rw [hcache, hkey]
      exact mapGet_eq_some_of_mem hnd2 hmem
    have hfr : t2 - ({ result := d, timestamp := now } : CacheEntry).timestamp < CACHE_TTL := by
      simpa using hfr2
    rw [scanUrl_fresh_hit hget2 hfr]
    exact ⟨rfl, by intro u; simp⟩

/-- Witness for C7: the spec scenario — a scan of a mixed-case URL answered
from a fresh Malicious cache entry, and a second scan 1 second after a
successful store returning the cached verdict. -/
theorem claim_C7_witness :
    mapGet [("http://example.com/a",
        { result := { risk := some "malicious", errorField := none }, timestamp := 0 })]
      (jsToLower "http://EXAMPLE.com/a") =
      some { result := { risk := some "malicious", errorField := none }, timestamp := 0 } ∧
    500 - (0 : Nat) < CACHE_TTL ∧
    scanUrl (fun _ => FetchOutcome.networkFailure) (some true) 500
        [("http://example.com/a",
          { result := { risk := some "malicious", errorField := none }, timestamp := 0 })]
        "http://EXAMPLE.com/a" =
      { retVal := some { risk := some "malicious", errorField := none },
        cache := [("http://example.com/a",
          { result := { risk := some "malicious", errorField := none }, timestamp := 0 })],
        events := [Event.setBadge BadgeDisplay.loading,
                   Event.cacheLookup (jsToLower "http://EXAMPLE.com/a"),
                   Event.setBadge BadgeDisplay.maliciousBadge],
        alerts := 0 } ∧
    (scanUrl (fun _ => FetchOutcome.networkFailure) none 1000
        (scanUrl (fun _ => FetchOutcome.payload true { risk := some "malicious", errorField := none })
          none 0 [] "http://EXAMPLE.com/a").cache
        "http://example.com/a").retVal =
      some { risk := some "malicious", errorField := none } := by
  refine ⟨by decide, by decide, ?_, ?_⟩
  · exact claim_C7.1 (fun _ => FetchOutcome.networkFailure) (some true) 500
      [("http://example.com/a",
        { result := { risk := some "malicious", errorField := none }, timestamp := 0 })]
      "http://EXAMPLE.com/a"
      { result := { risk := some "malicious", errorField := none }, timestamp := 0 }
      (by decide) (by decide)
  · exact (claim_C7.2.2 (fun _ => FetchOutcome.payload true { risk := some "malicious", errorField := none })
      (fun _ => FetchOutcome.networkFailure) none none 0 1000 [] "http://EXAMPLE.com/a"
      "http://example.com/a" true { risk := some "malicious", errorField := none }
      (by decide) (by decide) rfl (by decide) (by decide) (by decide) (by decide)).1

theorem contains_iff_mem {l : List String} {a : String} : l.contains a = true ↔ a ∈ l :=
  List.elem_iff

theorem jsSetDedupAux_sub (l : List String) : ∀ (seen : List String),
    ∀ y ∈ jsSetDedupAux seen l, y ∈ l := by
  induction l with
  | nil => intro seen y hy; simp [jsSetDedupAux] at hy
  | cons x xs ih =>
      intro seen y hy
      unfold jsSetDedupAux at hy
      by_cases hc : seen.contains x = true
      · rw [if_pos hc] at hy
        exact List.mem_cons_of_mem x (ih seen y hy)
      · rw [if_neg hc] at hy
        rcases List.mem_cons.mp hy with h1 | h1
        · exact h1 ▸ List.mem_cons_self x xs
        · exact List.mem_cons_of_mem x (ih (x :: seen) y h1)

theorem jsSetDedupAux_nodup (l : List String) : ∀ (seen : List String),
    (jsSetDedupAux seen l).Nodup ∧ ∀ y ∈ jsSetDedupAux seen l, y ∉ seen := by
  induction l with
  | nil => intro seen; simp [jsSetDedupAux]
  | cons x xs ih =>
      intro seen
      unfold jsSetDedupAux
      by_cases hc : seen.contains x = true
      · rw [if_pos hc]
        exact ih seen
      · rw [if_neg hc]
        obtain ⟨hnd, hnotin⟩ := ih (x :: seen)
        have hxseen : x ∉ seen := fun hx => hc (contains_iff_mem.mpr hx)
        refine ⟨List.nodup_cons.mpr ⟨?_, hnd⟩, ?_⟩
        · intro hx
          exact hnotin x hx (List.mem_cons_self x seen)
        · intro y hy
          rcases List.mem_cons.mp hy with h1 | h1
          · exact h1 ▸ hxseen
          · exact fun hys => hnotin y h1 (List.mem_cons_of_mem x hys)

theorem jsSetDedup_nodup (l : List String) : (jsSetDedup l).Nodup :=
  (jsSetDedupAux_nodup l []).1

theorem jsSetDedupAux_eq_self (l : List String) : ∀ (seen : List String),
    (∀ y ∈ l, y ∉ seen) → l.Nodup → jsSetDedupAux seen l = l := by
  induction l with
  | nil => intro seen _ _; rfl
  | cons x xs ih =>
      intro seen hdisj hnd
      obtain ⟨hx, hxs⟩ := List.nodup_cons.mp hnd
      have hc : seen.contains x ≠ true := by
        intro hc
        exact hdisj x (List.mem_cons_self x xs) (contains_iff_mem.mp hc)
      unfold jsSetDedupAux
      rw [if_neg hc]
      have hdisj2 : ∀ y ∈ xs, y ∉ x :: seen := by
        intro y hy hmem
        rcases List.mem_cons.mp hmem with h1 | h1
        · exact hx (h1 ▸ hy)
        · exact hdisj y (List.mem_cons_of_mem x hy) h1
      rw [ih (x :: seen) hdisj2 hxs]

theorem jsSetDedup_eq_self {l : List String} (h : l.Nodup) : jsSetDedup l = l :=
  jsSetDedupAux_eq_self l [] (by simp) h

theorem scanLinkStep_remoteCalls (f : String → FetchOutcome) (acc : BulkOutcome)
    (u : String) : (scanLinkStep f acc u).remoteCalls = acc.remoteCalls + 1 := by
  unfold scanLinkStep
  cases f u with
  | networkFailure => rfl
  | parseFailure st => rfl
  | payload st d =>
      by_cases h1 : (d.risk == some "safe") = true
      · simp [h1]
      · by_cases h2 : (d.risk == some "suspicious") = true
        · simp [h1, h2]
        · by_cases h3 : (d.risk == some "malicious") = true
          · simp [h1, h2, h3]
          · simp [h1, h2, h3]

theorem scanLinkStep_total (f : String → FetchOutcome) (acc : BulkOutcome)
    (u : String) : (scanLinkStep f acc u).stats.total = acc.stats.total := by
  unfold scanLinkStep
  cases f u with
  | networkFailure => rfl
  | parseFailure st => rfl
  | payload st d =>
      by_cases h1 : (d.risk == some "safe") = true
      · simp [h1]
      · by_cases h2 : (d.risk == some "suspicious") = true
        · simp [h1, h2]
        · by_cases h3 : (d.risk == some "malicious") = true
          · simp [h1, h2, h3]
          · simp [h1, h2, h3]

theorem scanLinkStep_safe (f : String → FetchOutcome) (acc : BulkOutcome)
    (u : String) : (scanLinkStep f acc u).stats.safe =
      acc.stats.safe + (if parsedRisk (f u) == some "safe" then 1 else 0) := by
  unfold scanLinkStep
  cases hf : f u with
  | networkFailure => simp [parsedRisk]
  | parseFailure st => simp [parsedRisk]
  | payload st d =>
      simp only [parsedRisk]
      by_cases h1 : (d.risk == some "safe") = true
      · simp [h1]
      · by_cases h2 : (d.risk == some "suspicious") = true
        · simp [h1, h2]
        · by_cases h3 : (d.risk == some "malicious") = true
          · simp [h1, h2, h3]
          · simp [h1, h2, h3]

theorem scanLinkStep_suspicious (f : String → FetchOutcome) (acc : BulkOutcome)
    (u : String) : (scanLinkStep f acc u).stats.suspicious =
      acc.stats.suspicious + (if parsedRisk (f u) == some "suspicious" then 1 else 0) := by
  unfold scanLinkStep
  cases hf : f u with
  | networkFailure => simp [parsedRisk]
  | parseFailure st => simp [parsedRisk]
  | payload st d =>
      simp only [parsedRisk]
      by_cases h1 : (d.risk == some "safe") = true
      · have h2 : (d.risk == some "suspicious") = false := by
          have he : d.risk = some "safe" := by simpa using h1
          simp [he]
        simp [h1, h2]
      · by_cases h2 : (d.risk == some "suspicious") = true
        · simp [h1, h2]
        · by_cases h3 : (d.risk == some "malicious") = true
          · simp [h1, h2, h3]
          · simp [h1, h2, h3]

theorem scanLinkStep_malicious (f : String → FetchOutcome) (acc : BulkOutcome)
    (u : String) : (scanLinkStep f acc u).stats.malicious =
      acc.stats.malicious + (if parsedRisk (f u) == some "malicious" then 1 else 0) := by
  unfold scanLinkStep
  cases hf : f u with
  | networkFailure => simp [parsedRisk]
  | parseFailure st => simp [parsedRisk]
  | payload st d =>
      simp only [parsedRisk]
      by_cases h1 : (d.risk == some "safe") = true
      · have h3 : (d.risk == some "malicious") = false := by
          have he : d.risk = some "safe" := by simpa using h1
          simp [he]
        simp [h1, h3]
      · by_cases h2 : (d.risk == some "suspicious") = true
        · have h3 : (d.risk == some "malicious") = false := by
            have he : d.risk = some "suspicious" := by simpa using h2
            simp [he]
          simp [h1, h2, h3]
        · by_cases h3 : (d.risk == some "malicious") = true
          · simp [h1, h2, h3]
          · simp [h1, h2, h3]

theorem scanLinkStep_results (f : String → FetchOutcome) (acc : BulkOutcome)
    (u : String) : (scanLinkStep f acc u).results =
      acc.results ++ ((payloadOf (f u)).map (fun d => (u, d))).toList := by
  unfold scanLinkStep
  cases hf : f u with
  | networkFailure => simp [payloadOf]
  | parseFailure st => simp [payloadOf]
  | payload st d =>
      simp only [payloadOf]
      by_cases h1 : (d.risk == some "safe") = true
      · simp [h1]
      · by_cases h2 : (d.risk == some "suspicious") = true
        · simp [h1, h2]
        · by_cases h3 : (d.risk == some "malicious") = true
          · simp [h1, h2, h3]
          · simp [h1, h2, h3]

theorem foldl_scanLink_remoteCalls (f : String → FetchOutcome) (l : List String)
    (init : BulkOutcome) :
    (l.foldl (scanLinkStep f) init).remoteCalls = init.remoteCalls + l.length := by
  induction l generalizing init with
  | nil => simp
  | cons x t ih =>
      rw [List.foldl_cons, ih, scanLinkStep_remoteCalls]
      simp
      omega

theorem foldl_scanLink_total (f : String → FetchOutcome) (l : List String)
    (init : BulkOutcome) :
    (l.foldl (scanLinkStep f) init).stats.total = init.stats.total := by
  induction l generalizing init with
  | nil => simp
  | cons x t ih =>
      rw [List.foldl_cons, ih, scanLinkStep_total]

theorem foldl_scanLink_safe (f : String → FetchOutcome) (l : List String)
    (init : BulkOutcome) :
    (l.foldl (scanLinkStep f) init).stats.safe =
      init.stats.safe + l.countP (fun u => parsedRisk (f u) == some "safe") := by
  induction l generalizing init with
  | nil => simp
  | cons x t ih =>
      rw [List.foldl_cons, ih, scanLinkStep_safe, List.countP_cons]
      by_cases h : (parsedRisk (f x) == some "safe") = true
      · simp [h]
        omega
      · simp [h]

theorem foldl_scanLink_suspicious (f : String → FetchOutcome) (l : List String)
    (init : BulkOutcome) :
    (l.foldl (scanLinkStep f) init).stats.suspicious =
      init.stats.suspicious + l.countP (fun u => parsedRisk (f u) == some "suspicious") := by
  induction l generalizing init with
  | nil => simp
  | cons x t ih =>
      rw [List.foldl_cons, ih, scanLinkStep_suspicious, List.countP_cons]
      by_cases h : (parsedRisk (f x) == some "suspicious") = true
      · simp [h]
        omega
      · simp [h]

theorem foldl_scanLink_malicious (f : String → FetchOutcome) (l : List String)
    (init : BulkOutcome) :
    (l.foldl (scanLinkStep f) init).stats.malicious =
      init.stats.malicious + l.countP (fun u => parsedRisk (f u) == some "malicious") := by
  induction l generalizing init with
  | nil => simp
  | cons x t ih =>
      rw [List.foldl_cons, ih, scanLinkStep_malicious, List.countP_cons]
      by_cases h : (parsedRisk (f x) == some "malicious") = true
      · simp [h]
        omega
      · simp [h]

theorem foldl_scanLink_results (f : String → FetchOutcome) (l : List String)
    (init : BulkOutcome) :
    (l.foldl (scanLinkStep f) init).results =
      init.results ++ l.filterMap (fun u => (payloadOf (f u)).map (fun d => (u, d))) := by
  induction l generalizing init with
  | nil => simp
  | cons x t ih =>
      rw [List.foldl_cons, ih, scanLinkStep_results, List.filterMap_cons]
      cases hp : payloadOf (f x) <;> simp

/-- C6: `scanPageLinks` deduplicates its input with set semantics, issues
exactly min(N, 50) remote calls for N deduplicated links (one per scanned
link, failures included), reports `total` — returned and persisted — as the
full deduplicated size N, and its risk-tier counters coincide with those of
a run over only the first 50 deduplicated links, so links beyond the cap
contribute nothing to the counters.  For 120 distinct links this gives
exactly 50 calls and `total = 120`. -/
theorem claim_C6 (f : String → FetchOutcome) (links : List String) :
    (scanPageLinks f links).remoteCalls = min ((jsSetDedup links).length) 50 ∧
    (scanPageLinks f links).stats.total = (jsSetDedup links).length ∧
    (scanPageLinks f links).stats.safe =
      (scanPageLinks f ((jsSetDedup links).take 50)).stats.safe ∧
    (scanPageLinks f links).stats.suspicious =
      (scanPageLinks f ((jsSetDedup links).take 50)).stats.suspicious ∧
    (scanPageLinks f links).stats.malicious =
      (scanPageLinks f ((jsSetDedup links).take 50)).stats.malicious := by
  have hdd : jsSetDedup ((jsSetDedup links).take 50) = (jsSetDedup links).take 50 :=
    jsSetDedup_eq_self
      (List.Nodup.sublist (List.take_sublist 50 (jsSetDedup links)) (jsSetDedup_nodup links))
  refine ⟨?_, ?_, ?_, ?_, ?_⟩
  · simp only [scanPageLinks]
    rw [foldl_scanLink_remoteCalls]
    simp [List.length_take, Nat.min_comm]
  · simp only [scanPageLinks]
    rw [foldl_scanLink_total]
  · simp only [scanPageLinks]
    rw [foldl_scanLink_safe, foldl_scanLink_safe, hdd, List.take_take]
    simp
  · simp only [scanPageLinks]
    rw [foldl_scanLink_suspicious, foldl_scanLink_suspicious, hdd, List.take_take]
    simp
  · simp only [scanPageLinks]
    rw [foldl_scanLink_malicious, foldl_scanLink_malicious, hdd, List.take_take]
    simp

/-- C10 counterexample: a parsed response carrying both an explicit `error`
field and `risk` of safe does increment the safe counter (the loop tests
`data.risk` without consulting `data.error`), contradicting the claim that
a response with an explicit `error` field increments none of the
counters.  It is, as the claim says, still pushed onto `results`. -/
theorem claim_C10_counterexample :
    CheckResponse.hasError { risk := some "safe", errorField := some "boom" } = true ∧
    (scanPageLinks
        (fun _ => FetchOutcome.payload true { risk := some "safe", errorField := some "boom" })
        ["http://u"]).stats.safe = 1 ∧
    (scanPageLinks
        (fun _ => FetchOutcome.payload true { risk := some "safe", errorField := some "boom" })
        ["http://u"]).results =
      [("http://u", { risk := some "safe", errorField := some "boom" })] := by
  decide

/-- C10 (amended): in the bulk link scan, a response whose JSON parses is
never treated as a failure, whatever its `error` field: it is always
appended to the `results` array forwarded for link highlighting, and it
increments a risk counter exactly when its `risk` field is one of the three
recognized tiers — so an error payload without a recognized `risk`
increments nothing, while one that also carries a recognized `risk` is
counted.  Only fetch or JSON-parse rejections are skipped. -/
theorem claim_C10 (f : String → FetchOutcome) (rawLinks : List String) :
    (scanPageLinks f rawLinks).results =
      ((jsSetDedup rawLinks).take 50).filterMap
        (fun u => (payloadOf (f u)).map (fun d => (u, d))) ∧
    (scanPageLinks f rawLinks).stats.safe =
      ((jsSetDedup rawLinks).take 50).countP (fun u => parsedRisk (f u) == some "safe") ∧
    (scanPageLinks f rawLinks).stats.suspicious =
      ((jsSetDedup rawLinks).take 50).countP (fun u => parsedRisk (f u) == some "suspicious") ∧
    (scanPageLinks f rawLinks).stats.malicious =
      ((jsSetDedup rawLinks).take 50).countP (fun u => parsedRisk (f u) == some "malicious") := by
  refine ⟨?_, ?_, ?_, ?_⟩
  · simp only [scanPageLinks]
    rw [foldl_scanLink_results]
    simp
  · simp only [scanPageLinks]
    rw [foldl_scanLink_safe]
    simp
  · simp only [scanPageLinks]
    rw [foldl_scanLink_suspicious]
    simp
  · simp only [scanPageLinks]
    rw [foldl_scanLink_malicious]
    simp

theorem byTimestamp_trans : ∀ (a b c : String × CacheEntry),
    byTimestamp a b = true → byTimestamp b c = true → byTimestamp a c = true := by
  intro a b c h1 h2
  simp only [byTimestamp, decide_eq_true_eq] at *
  omega

theorem byTimestamp_total : ∀ (a b : String × CacheEntry),
    (byTimestamp a b || byTimestamp b a) = true := by
  intro a b
  simp only [byTimestamp, Bool.or_eq_true, decide_eq_true_eq]
  omega

theorem capacitySweep_perm_drop {c1 : Cache} (hnd : KeysNodup c1) :
    (capacitySweep c1).Perm
      ((c1.mergeSort byTimestamp).drop ((c1.mergeSort byTimestamp).length - 500)) := by
  have hperm : (c1.mergeSort byTimestamp).Perm c1 := List.mergeSort_perm c1 byTimestamp
  have hndE : KeysNodup (c1.mergeSort byTimestamp) := by
    unfold KeysNodup at *
    exact ((hperm.map Prod.fst).nodup_iff).mpr hnd
  set entries := c1.mergeSort byTimestamp with hent
  set k := entries.length - 500 with hk
  set deleted := entries.take k with hdel
  set kept := entries.drop k with hkep
  have hsplit : deleted ++ kept = entries := List.take_append_drop k entries
  have hkeydisj : (deleted.map Prod.fst).Disjoint (kept.map Prod.fst) := by
    have h2 : (deleted.map Prod.fst ++ kept.map Prod.fst).Nodup := by
      rw [← List.map_append, hsplit]
      exact hndE
    exact List.disjoint_of_nodup_append h2
  have hfilterTake :
      deleted.filter (fun kv => ! deleted.any (fun d => d.1 == kv.1)) = [] := by
    rw [List.filter_eq_nil_iff]
    intro kv hkv
    have hany : deleted.any (fun d => d.1 == kv.1) = true :=
      List.any_eq_true.mpr ⟨kv, hkv, by simp⟩
    simp [hany]
  have hfilterDrop :
      kept.filter (fun kv => ! deleted.any (fun d => d.1 == kv.1)) = kept := by
    rw [List.filter_eq_self]
    intro kv hkv
    have hnot : deleted.any (fun d => d.1 == kv.1) = false := by
      rw [List.any_eq_false]
      intro d hd hdk
      have hdk2 : d.1 = kv.1 := by simpa using hdk
      exact hkeydisj (List.mem_map.mpr ⟨d, hd, rfl⟩)
        (by rw [hdk2]; exact List.mem_map.mpr ⟨kv, hkv, rfl⟩)
    simp [hnot]
  have hcs : capacitySweep c1 =
      c1.filter (fun kv => ! deleted.any (fun d => d.1 == kv.1)) := by
    simp only [capacitySweep]
  have hfinal : entries.filter (fun kv => ! deleted.any (fun d => d.1 == kv.1)) = kept := by
    conv_lhs => rw [← hsplit]
    rw [List.filter_append, hfilterTake, hfilterDrop]
    simp
  rw [hcs]
  exact hfinal ▸ (hperm.symm.filter _)

theorem capacitySweep_length {c1 : Cache} (hnd : KeysNodup c1) (hgt : c1.length > 1000) :
    (capacitySweep c1).length = 500 := by
  have hp := capacitySweep_perm_drop hnd
  rw [hp.length_eq, List.length_drop]
  simp only [List.length_mergeSort]
  omega

theorem capacitySweep_recent {c1 : Cache} (hnd : KeysNodup c1) :
    ∀ x ∈ capacitySweep c1, ∀ y ∈ c1, y ∉ capacitySweep c1 →
      y.2.timestamp ≤ x.2.timestamp := by
  have hperm : (c1.mergeSort byTimestamp).Perm c1 := List.mergeSort_perm c1 byTimestamp
  have hsorted : List.Pairwise (fun a b => byTimestamp a b = true) (c1.mergeSort byTimestamp) :=
    List.sorted_mergeSort byTimestamp_trans byTimestamp_total c1
  have hp := capacitySweep_perm_drop hnd
  set entries := c1.mergeSort byTimestamp with hent
  set k := entries.length - 500 with hk
  set deleted := entries.take k with hdel
  set kept := entries.drop k with hkep
  have hsplit : deleted ++ kept = entries := List.take_append_drop k entries
  intro x hx y hy hyn
  have hxkept : x ∈ kept := (hp.mem_iff).mp hx
  have hyentries : y ∈ entries := (hperm.mem_iff).mpr hy
  have hykept : y ∉ kept := fun hyk => hyn ((hp.mem_iff).mpr hyk)
  have hydel : y ∈ deleted := by
    rcases List.mem_append.mp (by rw [hsplit]; exact hyentries : y ∈ deleted ++ kept)
      with h1 | h1
    · exact h1
    · exact absurd h1 hykept
  have hpw : ∀ a ∈ deleted, ∀ b ∈ kept, byTimestamp a b = true := by
    have h2 : List.Pairwise (fun a b => byTimestamp a b = true) (deleted ++ kept) := by
      rw [hsplit]
      exact hsorted
    exact (List.pairwise_append.mp h2).2.2
  have := hpw y hydel x hxkept
  simpa [byTimestamp] using this

theorem cleanCache_eq_ttlSweep {now : Nat} {c : Cache}
    (h : ¬ (ttlSweep now c).length > 1000) : cleanCache now c = ttlSweep now c := by
  unfold cleanCache
  rw [if_neg h]

theorem cleanCache_eq_capacitySweep {now : Nat} {c : Cache}
    (h : (ttlSweep now c).length > 1000) :
    cleanCache now c = capacitySweep (ttlSweep now c) := by
  unfold cleanCache
  rw [if_pos h]

theorem cleanCache_length_le (now : Nat) {c : Cache} (hnd : KeysNodup c) :
    (cleanCache now c).length ≤ 1000 := by
  by_cases h : (ttlSweep now c).length > 1000
  · rw [cleanCache_eq_capacitySweep h,
      capacitySweep_length (keysNodup_ttlSweep now hnd) h]
    omega
  · rw [cleanCache_eq_ttlSweep h]
    omega

theorem keysNodup_cachePut (now : Nat) {c : Cache} (url : String) (data : CheckResponse)
    (hnd : KeysNodup c) : KeysNodup (cachePut now c url data) :=
  keysNodup_cleanCache now (keysNodup_mapSet (jsToLower url) _ hnd)

theorem cachePut_length_le (now : Nat) {c : Cache} (url : String) (data : CheckResponse)
    (hnd : KeysNodup c) : (cachePut now c url data).length ≤ 1000 :=
  cleanCache_length_le now (keysNodup_mapSet (jsToLower url) _ hnd)

theorem applyPuts_length_le (ops : List PutOp) : ∀ {c : Cache}, KeysNodup c →
    c.length ≤ 1000 → (applyPuts ops c).length ≤ 1000 := by
  induction ops with
  | nil =>
      intro c _ hlen
      exact hlen
  | cons op ops ih =>
      intro c hnd _
      exact ih (keysNodup_cachePut op.now op.url op.data hnd)
        (cachePut_length_le op.now op.url op.data hnd)

/-- C2 counterexample: a `put` that makes the raw size exceed the maximum
(1000 entries stored at time 0, one new key stored at 301000, raw size
1001) does not leave 500 entries: the opportunistic TTL pass expires all
1000 old entries first, so the capacity sweep never runs and the resulting
size is 1.  This cache is reachable by puts: 1000 stores of distinct
lowercase keys at time 0.  The claim that every insertion exceeding the
maximum leaves exactly half the maximum is therefore false. -/
theorem claim_C2_counterexample :
    (mapSet (rangeCache 1000 (fun _ => 0)) "b"
      { result := blankResponse, timestamp := 301000 }).length = 1001 ∧
    (cachePut 301000 (rangeCache 1000 (fun _ => 0)) "b" blankResponse).length = 1 ∧
    (cachePut 301000 (rangeCache 1000 (fun _ => 0)) "b" blankResponse).length ≠ 500 := by
  have hne : ∀ kv ∈ rangeCache 1000 (fun _ => 0), kv.1 ≠ "b" := by
    intro kv hkv
    rcases List.mem_map.mp hkv with ⟨i, hi, hkv2⟩
    rw [← hkv2]
    intro hb
    have hb2 : repKey i = "b" := hb
    have hdata : List.replicate (i + 1) 'a' = ['b'] := congrArg String.data hb2
    rw [List.replicate_succ] at hdata
    injection hdata with h1 h2
    exact absurd h1 (by decide)
  have hset : mapSet (rangeCache 1000 (fun _ => 0)) "b"
      { result := blankResponse, timestamp := 301000 } =
      rangeCache 1000 (fun _ => 0) ++ [("b", { result := blankResponse, timestamp := 301000 })] :=
    mapSet_append_of_keys_ne _ hne
  have hsweep : ttlSweep 301000
      (rangeCache 1000 (fun _ => 0) ++ [("b", { result := blankResponse, timestamp := 301000 })]) =
      [("b", { result := blankResponse, timestamp := 301000 })] := by
    unfold ttlSweep
    rw [List.filter_append]
    have hleft : (rangeCache 1000 (fun _ => 0)).filter (fun kv => ! expiredAt 301000 kv) = [] := by
      rw [List.filter_eq_nil_iff]
      intro kv hkv
      rcases List.mem_map.mp hkv with ⟨i, hi, hkv2⟩
      rw [← hkv2]
      simp [expiredAt, CACHE_TTL]
    rw [hleft]
    simp [expiredAt, CACHE_TTL]
  have hlow : jsToLower "b" = "b" := by decide
  have hle : ¬ (ttlSweep 301000
      (rangeCache 1000 (fun _ => 0) ++ [("b", { result := blankResponse, timestamp := 301000 })])).length > 1000 := by
    rw [hsweep]
    simp
  have hput : cachePut 301000 (rangeCache 1000 (fun _ => 0)) "b" blankResponse =
      [("b", { result := blankResponse, timestamp := 301000 })] := by
    unfold cachePut
    rw [hlow, hset, cleanCache_eq_ttlSweep hle, hsweep]
  refine ⟨?_, ?_, ?_⟩
  · rw [hset, List.length_append, length_rangeCache]
    rfl
  · rw [hput]
    rfl
  · rw [hput]
    simp

/-- C2 (amended): after any sequence of put operations starting from the
empty cache, the size never exceeds the configured maximum of 1000.
Whenever, after the opportunistic TTL purge that `cleanCache` runs first,
more than 1000 entries still remain, the capacity sweep leaves exactly half
the maximum — 500 entries — and retention is by recency: every evicted
entry's `storedAt` timestamp is at most every retained entry's timestamp
(ties broken by sort stability).  The claim's original form fails only when
the TTL purge already brought the size within bounds, as in the
counterexample. -/
theorem claim_C2 :
    (∀ ops : List PutOp, (applyPuts ops []).length ≤ 1000) ∧
    (∀ (now : Nat) (c : Cache), KeysNodup c → (ttlSweep now c).length > 1000 →
      (cleanCache now c).length = 500 ∧
      ∀ x ∈ cleanCache now c, ∀ y ∈ ttlSweep now c, y ∉ cleanCache now c →
        y.2.timestamp ≤ x.2.timestamp) := by
  constructor
  · intro ops
    exact applyPuts_length_le ops (by simp [KeysNodup]) (by simp)
  · intro now c hnd hgt
    have hnd1 := keysNodup_ttlSweep now hnd
    rw [cleanCache_eq_capacitySweep hgt]
    exact ⟨capacitySweep_length hnd1 hgt, capacitySweep_recent hnd1⟩

theorem ttlSweep_fresh_rangeCache :
    ttlSweep 1000 (rangeCache 1001 (fun i => i)) = rangeCache 1001 (fun i => i) := by
  unfold ttlSweep
  rw [List.filter_eq_self]
  intro kv hkv
  rcases List.mem_map.mp hkv with ⟨i, hi, hkv2⟩
  rw [← hkv2]
  simp [expiredAt, CACHE_TTL]
  omega

/-- Witness for C2: a cache of 1001 distinct keys, all within the TTL at
time 1000, triggers the capacity sweep, which leaves exactly 500 entries. -/
theorem claim_C2_witness :
    KeysNodup (rangeCache 1001 (fun i => i)) ∧
    (ttlSweep 1000 (rangeCache 1001 (fun i => i))).length > 1000 ∧
    (cleanCache 1000 (rangeCache 1001 (fun i => i))).length = 500 := by
  have hnd := keysNodup_rangeCache 1001 (fun i => i)
  have hgt : (ttlSweep 1000 (rangeCache 1001 (fun i => i))).length > 1000 := by
    rw [ttlSweep_fresh_rangeCache, length_rangeCache]
    omega
  exact ⟨hnd, hgt, (claim_C2.2 1000 (rangeCache 1001 (fun i => i)) hnd hgt).1⟩

end PhishShield
